import Mathlib

/-!
Shallow embedding of the stage-generation core of Tako-Jump
(`src/game/stage.ts`): the Mulberry32 seeded PRNG, platform / moon /
eel / star generation and the score formula.  JavaScript numbers are
modelled as exact rationals (`ℚ`); 32-bit integer operations are
modelled on `ℕ` with explicit reduction modulo `2 ^ 32`.  The module
level mutable PRNG (`currentRandom`) is modelled by threading the
32-bit generator state explicitly through every function.
-/

namespace TakoJump

/-- `2 ^ 32`, the modulus of all 32-bit wrapping arithmetic. -/
def U32 : ℕ := 4294967296

/-- `Math.imul a b` on the 32-bit patterns of its arguments: the
wrapping 32-bit product. -/
def imul32 (a b : ℕ) : ℕ := a * b % U32

/-- One step of the Mulberry32 generator, from
`createSeededRandom` in `stage.ts`:

    state = (state + 0x6D2B79F5) | 0;
    let t = Math.imul(state ^ (state >>> 15), 1 | state);
    t = (t + Math.imul(t ^ (t >>> 7), 61 | t)) ^ t;
    return ((t ^ (t >>> 14)) >>> 0) / 4294967296;

Returns the new 32-bit state together with the produced value
(the final unsigned 32-bit pattern divided by `2 ^ 32`). -/
def mulberryStep (state : ℕ) : ℕ × ℚ :=
  let s := (state + 0x6D2B79F5) % U32
  let t1 := imul32 (s ^^^ (s >>> 15)) (1 ||| s)
  let t2 := ((t1 + imul32 (t1 ^^^ (t1 >>> 7)) (61 ||| t1)) % U32) ^^^ t1
  let out := (t2 ^^^ (t2 >>> 14)) % U32
  (s, (out : ℚ) / (U32 : ℚ))

/-- `setRandomSeed` in `stage.ts`: the seed derived from the stage
number, `stageNumber * 12345 + 98765`. -/
def seedFor (stageNumber : ℕ) : ℕ := stageNumber * 12345 + 98765

/-- `randomInt(min, max)` from `stage.ts`:
`Math.floor(currentRandom() * (max - min + 1)) + min`, threading the
PRNG state. -/
def randomInt (rng : ℕ) (lo hi : ℤ) : ℕ × ℤ :=
  let p := mulberryStep rng
  (p.1, ⌊p.2 * ((hi : ℚ) - (lo : ℚ) + 1)⌋ + lo)

/-- `randomInRange(min, max)` from `stage.ts`:
`currentRandom() * (max - min) + min`. -/
def randomInRange (rng : ℕ) (lo hi : ℚ) : ℕ × ℚ :=
  let p := mulberryStep rng
  (p.1, p.2 * (hi - lo) + lo)

/-- `Math.round` of JavaScript: half-way cases round toward `+∞`,
so `Math.round q = ⌊q + 1/2⌋`. -/
def jsRound (q : ℚ) : ℤ := ⌊q + 1 / 2⌋

/-- The unsigned 32-bit pattern behind a Mulberry32 draw. -/
def mulberryOut (state : ℕ) : ℕ :=
  let s := (state + 0x6D2B79F5) % U32
  let t1 := imul32 (s ^^^ (s >>> 15)) (1 ||| s)
  let t2 := ((t1 + imul32 (t1 ^^^ (t1 >>> 7)) (61 ||| t1)) % U32) ^^^ t1
  (t2 ^^^ (t2 >>> 14)) % U32

/-! ### Data model (`types.ts` shapes used by `stage.ts`) -/

/-- `PlatformType` from `types.ts`: the four platform variants. -/
inductive PlatformType where
  | normal
  | ice
  | caterpillar
  | moving
deriving DecidableEq, Repr

/-- `Platform` from `types.ts`, with the optional caterpillar fields
as `Option`s (absent on non-caterpillar platforms). -/
structure Platform where
  x : ℚ
  y : ℚ
  width : ℚ
  type : PlatformType
  blockCount : ℤ
  caterpillarOffset : Option ℚ := none
  caterpillarDirection : Option ℤ := none
deriving DecidableEq, Repr

/-- `Moon` from `types.ts`. -/
structure Moon where
  x : ℚ
  y : ℚ
  size : ℚ
deriving DecidableEq, Repr

/-- `Eel` from `types.ts`.  The source sets
`rotation: currentRandom() * Math.PI * 2`; since `π` is irrational the
model stores the uniform draw itself in `rotationDraw` (the source's
rotation is `2 * π * rotationDraw`, a fixed bijective rescaling). -/
structure Eel where
  x : ℚ
  y : ℚ
  size : ℚ
  isCollected : Bool
  rotationDraw : ℚ
deriving DecidableEq, Repr

/-- `Star` type tags from `types.ts`. -/
inductive StarType where
  | dot
  | cross
  | crescent
  | sparkle
deriving DecidableEq, Repr

/-- `Star` from `types.ts`. -/
structure Star where
  x : ℚ
  y : ℚ
  size : ℚ
  type : StarType
deriving DecidableEq, Repr

/-- Modelled from the spec: the numeric constants of `config.ts`
(`CONFIG.CANVAS_WIDTH`, `CONFIG.CANVAS_HEIGHT`,
`CONFIG.PLATFORM.BLOCK_SIZE`, `CONFIG.EEL.SIZE`, `CONFIG.MOON.SIZE`,
`CONFIG.BASE_SCORE`, `CONFIG.TIME_BONUS_MULTIPLIER`).  `config.ts` is
not among the provided sources, so the constants are abstract
parameters here; the spec's score example fixes
`BASE_SCORE = 100` and `TIME_BONUS_MULTIPLIER = 10`. -/
structure Config where
  canvasWidth : ℚ
  canvasHeight : ℚ
  blockSize : ℚ
  eelSize : ℚ
  moonSize : ℚ
  baseScore : ℚ
  timeBonusMultiplier : ℚ
deriving DecidableEq, Repr

/-- `StageConfig` from `config.ts` (fields as used by `stage.ts`).
The source reads the ratio fields and `eelCount` through `|| 0` and
`firstPlatformGap` through `|| 200`; the JavaScript `||` falls back on
`0`/`undefined`, which the generator functions reproduce below. -/
structure StageConfig where
  platformCount : ℕ
  gapMin : ℚ
  gapMax : ℚ
  blockCountMin : ℤ
  blockCountMax : ℤ
  normalRatio : ℚ
  iceRatio : ℚ
  caterpillarRatio : ℚ
  firstPlatformGap : ℚ
  waterSpeed : ℚ
  eelCount : ℕ
deriving DecidableEq, Repr

/-! ### Platform generation (`stage.ts`) -/

/-- `determinePlatformType` from `stage.ts`: one PRNG draw compared
against the cumulative ratios, defaulting to `normal`. -/
def determinePlatformType (sc : StageConfig) (rng : ℕ) :
    ℕ × PlatformType :=
  let p := mulberryStep rng
  let t :=
    if p.2 < sc.normalRatio then PlatformType.normal
    else if p.2 < sc.normalRatio + sc.iceRatio then PlatformType.ice
    else if p.2 < sc.normalRatio + sc.iceRatio + sc.caterpillarRatio then
      PlatformType.caterpillar
    else PlatformType.normal
  (p.1, t)

/-- Assembling the emitted platform record (`stage.ts` lines
97–103): caterpillar platforms additionally carry a zero offset and
a direction decided by the draw `d` (`+1` when `d < 0.5`, `-1`
otherwise); the direction draw is consumed only for caterpillar
platforms. -/
def platformOf (t : PlatformType) (x y w : ℚ) (bc : ℤ) (d : ℚ) :
    Platform :=
  { x := x, y := y, width := w, type := t, blockCount := bc,
    caterpillarOffset :=
      if t = PlatformType.caterpillar then some 0 else none,
    caterpillarDirection :=
      if t = PlatformType.caterpillar then
        some (if d < 1 / 2 then 1 else -1)
      else none }

/-- One iteration of the floating-platform loop of
`generatePlatforms` (`stage.ts` lines 74–107): `isFirst` is true
exactly on iteration `i = 0` (no vertical gap drawn), `currentY` /
`lastX` are the loop variables, and the PRNG state is threaded in
draw order (gap, blockCount, type, xRaw, caterpillar direction).
Returns the emitted platform and the PRNG state after the
iteration; the next iteration's `currentY` is the platform's `y` and
its `lastX` is the platform's center `x + width / 2`. -/
def genStep (C : Config) (sc : StageConfig) (isFirst : Bool)
    (rng : ℕ) (currentY lastX : ℚ) : Platform × ℕ :=
  let g := if isFirst then (rng, (0 : ℚ))
           else randomInRange rng sc.gapMin sc.gapMax
  let currentY' := if isFirst then currentY else currentY - g.2
  let b := randomInt g.1 sc.blockCountMin sc.blockCountMax
  let width := (b.2 : ℚ) * C.blockSize
  let ty := determinePlatformType sc b.1
  let maxHorizontalJump := C.canvasWidth * (1 / 2)
  let minX := max 10 (lastX - maxHorizontalJump)
  let maxX := min (C.canvasWidth - width - 10) (lastX + maxHorizontalJump)
  let xr := randomInRange ty.1 minX maxX
  let x := (jsRound (xr.2 / C.blockSize) : ℚ) * C.blockSize
  let q := mulberryStep xr.1
  (platformOf ty.2 x currentY' width b.2 q.2,
   if ty.2 = PlatformType.caterpillar then q.1 else xr.1)

/-- The floating-platform loop of `generatePlatforms`, iterating
`genStep`. -/
def genFloating (C : Config) (sc : StageConfig) :
    ℕ → Bool → ℕ → ℚ → ℚ → List Platform × ℕ
  | 0, _, rng, _, _ => ([], rng)
  | n + 1, isFirst, rng, currentY, lastX =>
    let s := genStep C sc isFirst rng currentY lastX
    let rest := genFloating C sc n false s.2 s.1.y (s.1.x + s.1.width / 2)
    (s.1 :: rest.1, rest.2)

/-- `generatePlatforms` from `stage.ts`: the ground platform followed
by `platformCount` floating platforms; returns the list together with
the final PRNG state. -/
def generatePlatforms (C : Config) (sc : StageConfig) (rng : ℕ) :
    List Platform × ℕ :=
  let groundY := C.canvasHeight - 50
  let groundBlockCount : ℤ := ⌈C.canvasWidth / C.blockSize⌉
  let ground : Platform :=
    { x := 0, y := groundY, width := C.canvasWidth,
      type := PlatformType.normal, blockCount := groundBlockCount }
  let firstGap := if sc.firstPlatformGap = 0 then 200 else sc.firstPlatformGap
  let r := genFloating C sc sc.platformCount true rng
            (groundY - firstGap) (C.canvasWidth / 2)
  (ground :: r.1, r.2)

/-! ### Moon, eels, stars, water, score (`stage.ts`) -/

/-- `generateMoon` from `stage.ts`: `reduce` over the platform list
keeping the platform with the smallest `y` (strict `<`, so the
earliest on ties); `reduce` on an empty list throws in JavaScript,
modelled by `Option`. -/
def generateMoon (C : Config) (platforms : List Platform) : Option Moon :=
  match platforms with
  | [] => none
  | p0 :: rest =>
    let highest := rest.foldl (fun h p => if p.y < h.y then p else h) p0
    some { x := C.canvasWidth / 2 - C.moonSize / 2,
           y := highest.y - 200, size := C.moonSize }

/-- The nearest-platform scan of `generateEels` (`stage.ts` lines
148–157): start from `floatingPlatforms[0]` and replace the candidate
whenever a strictly smaller `|y - targetY|` is found (so the earliest
platform wins ties). -/
def nearestPlatformTo (targetY : ℚ) (f0 : Platform)
    (floating : List Platform) : Platform :=
  floating.foldl
    (fun best p => if |p.y - targetY| < |best.y - targetY| then p else best)
    f0

/-- One iteration of the eel loop of `generateEels` (`stage.ts` lines
142–173), for loop index `i`: draws, in order, the x offset, the y
offset and the rotation. -/
def makeEel (C : Config) (i : ℕ) (highestY heightRange : ℚ)
    (eelCount : ℕ) (f0 : Platform) (floating : List Platform)
    (rng : ℕ) : Eel × ℕ :=
  let sectionHeight := heightRange / ((eelCount : ℚ) + 1)
  let targetY := highestY + sectionHeight * ((i : ℚ) + 1)
  let nearest := nearestPlatformTo targetY f0 floating
  let xr := randomInRange rng
    (max 20 (nearest.x - 50))
    (min (C.canvasWidth - C.eelSize - 20) (nearest.x + nearest.width + 50))
  let yr := randomInRange xr.1 100 200
  let rot := mulberryStep yr.1
  ({ x := xr.2, y := nearest.y - yr.2, size := C.eelSize,
     isCollected := false, rotationDraw := rot.2 }, rot.1)

/-- The eel loop: `fuel` iterations remaining, current index `i`. -/
def eelLoop (C : Config) (highestY heightRange : ℚ) (eelCount : ℕ)
    (f0 : Platform) (floating : List Platform) :
    ℕ → ℕ → ℕ → List Eel × ℕ
  | _, 0, rng => ([], rng)
  | i, fuel + 1, rng =>
    let e := makeEel C i highestY heightRange eelCount f0 floating rng
    let rest := eelLoop C highestY heightRange eelCount f0 floating
      (i + 1) fuel e.2
    (e.1 :: rest.1, rest.2)

/-- `generateEels` from `stage.ts`: empty when `eelCount = 0` or when
fewer than two floating platforms exist, otherwise `eelCount` eels
distributed over the floating platforms' height range. -/
def generateEels (C : Config) (sc : StageConfig)
    (platforms : List Platform) (rng : ℕ) : List Eel × ℕ :=
  if sc.eelCount = 0 then ([], rng)
  else
    let floating := platforms.drop 1
    if floating.length < 2 then ([], rng)
    else
      match floating with
      | [] => ([], rng)
      | f0 :: _ =>
        let lowestY := f0.y
        let highestY := (floating.getLast?.getD f0).y
        let heightRange := lowestY - highestY
        eelLoop C highestY heightRange sc.eelCount f0 floating
          0 sc.eelCount rng

/-- One iteration of the star loop of `generateStars` (`stage.ts`
lines 194–204): draws, in order, the type index, x, y and — only for
`dot` / `cross` — the size. -/
def makeStar (C : Config) (totalHeight : ℚ) (rng : ℕ) : Star × ℕ :=
  let tr := mulberryStep rng
  let idx := (⌊tr.2 * 4⌋).toNat
  let ty := [StarType.dot, StarType.cross, StarType.crescent,
             StarType.sparkle].getD idx StarType.dot
  let xr := mulberryStep tr.1
  let x := xr.2 * C.canvasWidth
  let yr := mulberryStep xr.1
  let y := -totalHeight + yr.2 * (totalHeight + C.canvasHeight)
  let s :=
    if ty = StarType.crescent then ((12 : ℚ), yr.1)
    else if ty = StarType.sparkle then ((8 : ℚ), yr.1)
    else
      let sr := randomInRange yr.1 2 4
      (sr.2, sr.1)
  ({ x := x, y := y, size := s.1, type := ty }, s.2)

/-- The star loop, by remaining count. -/
def starLoop (C : Config) (totalHeight : ℚ) :
    ℕ → ℕ → List Star × ℕ
  | 0, rng => ([], rng)
  | n + 1, rng =>
    let s := makeStar C totalHeight rng
    let rest := starLoop C totalHeight n s.2
    (s.1 :: rest.1, rest.2)

/-- `generateStars` from `stage.ts`:
`starCount = Math.floor(totalHeight / CANVAS_HEIGHT * 30)` stars (none
when the count is not positive). -/
def generateStars (C : Config) (totalHeight : ℚ) (rng : ℕ) :
    List Star × ℕ :=
  let starCount := (⌊totalHeight / C.canvasHeight * 30⌋).toNat
  starLoop C totalHeight starCount rng

/-- `calculateScore` from `stage.ts`. -/
def calculateScore (C : Config)
    (stageNumber clearTime baseTime : ℚ) : ℤ :=
  let baseScore := C.baseScore
  let timeBonus := max 0 ((baseTime - clearTime) * C.timeBonusMultiplier)
  let stageMultiplier := 1 + (stageNumber - 1) * (1 / 2)
  ⌊(baseScore + timeBonus) * stageMultiplier⌋

/-- The layouts produced for one stage. -/
structure StageLayout where
  platforms : List Platform
  moon : Option Moon
  eels : List Eel
  stars : List Star
deriving DecidableEq, Repr

/-- One full generation run as performed at stage start: the incoming
module-level PRNG state `rngIn` is overwritten by
`setRandomSeed(stageNumber)`, then `generatePlatforms`,
`generateMoon`, `generateEels` and `generateStars` run in sequence on
the single PRNG stream.  Returns the layouts and the final PRNG
state. -/
def sessionRun (C : Config) (sc : StageConfig) (stageNumber : ℕ)
    (totalHeight : ℚ) (rngIn : ℕ) : StageLayout × ℕ :=
  let _ := rngIn
  let rng0 := seedFor stageNumber
  let pr := generatePlatforms C sc rng0
  let moon := generateMoon C pr.1
  let er := generateEels C sc pr.1 pr.2
  let st := generateStars C totalHeight er.2
  ({ platforms := pr.1, moon := moon, eels := er.1, stars := st.1 }, st.2)

/-- The 32-bit PRNG state after `k` calls, starting from `seed`
(`createSeededRandom`'s captured `state`). -/
def mulberryState (seed : ℕ) : ℕ → ℕ
  | 0 => seed
  | k + 1 => (mulberryStep (mulberryState seed k)).1

/-- Follows the spec's words (§4.2 step 9): the score formula
`floor((baseScore + max(0, (baseTime - clearTime) * timeBonusMultiplier))
* (1 + (stageNumber-1)*0.5))`. -/
def scoreFormulaSpec (baseScore timeBonusMultiplier
    stageNumber clearTime baseTime : ℚ) : ℤ :=
  ⌊(baseScore + max 0 ((baseTime - clearTime) * timeBonusMultiplier))
    * (1 + (stageNumber - 1) * (1 / 2))⌋

/-- The configuration fixed by the spec's score example:
`baseScore = 100`, `timeBonusMultiplier = 10` (the canvas constants
are irrelevant to the score). -/
def exampleConfig : Config :=
  { canvasWidth := 400, canvasHeight := 600, blockSize := 30,
    eelSize := 40, moonSize := 60, baseScore := 100,
    timeBonusMultiplier := 10 }


/-- A default `Platform` used as the fallback of `List.getD` in
statements about list elements. -/
def dfltPlatform : Platform :=
  { x := 0, y := 0, width := 0, type := PlatformType.normal,
    blockCount := 0 }

/-- A default `Eel` used as the fallback of `List.getD`. -/
def dfltEel : Eel :=
  { x := 0, y := 0, size := 0, isCollected := false, rotationDraw := 0 }

/-- Per-pair reachability bound actually enforced by the sampler:
when the sampling window for the next platform (centered on the
previous platform's center `lx`) does not invert, and the platform's
width is nonnegative, the new center is within
`maxHorizontalJump + blockSize / 2 + width / 2` of `lx` (the
half-width and the block-size snap are the slack the source adds on
top of the window). -/
def reachFrom (C : Config) (lx : ℚ) (p : Platform) : Prop :=
  0 ≤ p.width →
  max 10 (lx - C.canvasWidth * (1 / 2))
      ≤ min (C.canvasWidth - p.width - 10) (lx + C.canvasWidth * (1 / 2)) →
  |p.x + p.width / 2 - lx|
      ≤ C.canvasWidth * (1 / 2) + C.blockSize / 2 + p.width / 2

/-- The clamping actually performed by the sampler: the emitted `x`
is within `blockSize / 2` (the rounding snap) of the closed interval
spanned by the window endpoints `minX` and `maxX` — in whichever
order they happen to lie. -/
def clampFrom (C : Config) (lx : ℚ) (p : Platform) : Prop :=
  min (max 10 (lx - C.canvasWidth * (1 / 2)))
        (min (C.canvasWidth - p.width - 10) (lx + C.canvasWidth * (1 / 2)))
      - C.blockSize / 2 ≤ p.x ∧
  p.x ≤ max (max 10 (lx - C.canvasWidth * (1 / 2)))
        (min (C.canvasWidth - p.width - 10) (lx + C.canvasWidth * (1 / 2)))
      + C.blockSize / 2

/-- `p` is the earliest element of `l` attaining the minimal vertical
distance to the target height `t` — the tie-breaking rule of the
eel-placement scan. -/
def isEarliestMin (t : ℚ) (l : List Platform) (p : Platform) : Prop :=
  ∃ i, i < l.length ∧ l.getD i dfltPlatform = p ∧
    (∀ q ∈ l, |p.y - t| ≤ |q.y - t|) ∧
    ∀ j < i, |p.y - t| < |(l.getD j dfltPlatform).y - t|

/-- Concrete canvas constants used by the concrete instances below
(`config.ts` is not among the sources; the values are plausible
stand-ins and the universal theorems do not depend on them). -/
def cexConfig : Config :=
  { canvasWidth := 400, canvasHeight := 600, blockSize := 30,
    eelSize := 40, moonSize := 60, baseScore := 100,
    timeBonusMultiplier := 10 }

/-- A stage configuration whose platforms are wider than the canvas:
every x-sampling window inverts. -/
def cexWide : StageConfig :=
  { platformCount := 2, gapMin := 100, gapMax := 100,
    blockCountMin := 100, blockCountMax := 100,
    normalRatio := 0, iceRatio := 0, caterpillarRatio := 0,
    firstPlatformGap := 200, waterSpeed := 1, eelCount := 0 }

/-- A stage configuration with `gapMin > 0` but an inverted gap range
(`gapMax < gapMin`), so drawn gaps can be negative. -/
def cexGapInv : StageConfig :=
  { platformCount := 2, gapMin := 5, gapMax := -10,
    blockCountMin := 1, blockCountMax := 1,
    normalRatio := 0, iceRatio := 0, caterpillarRatio := 0,
    firstPlatformGap := 200, waterSpeed := 1, eelCount := 0 }

/-- A stage configuration with a negative `caterpillarRatio`, making
the cumulative-ratio thresholds non-monotone. -/
def cexRatio : StageConfig :=
  { platformCount := 1, gapMin := 100, gapMax := 100,
    blockCountMin := 1, blockCountMax := 1,
    normalRatio := 0, iceRatio := 1, caterpillarRatio := -1,
    firstPlatformGap := 200, waterSpeed := 1, eelCount := 0 }

/-- A well-formed stage configuration used by the witnesses. -/
def witStage : StageConfig :=
  { platformCount := 3, gapMin := 80, gapMax := 120,
    blockCountMin := 2, blockCountMax := 4,
    normalRatio := 1 / 2, iceRatio := 3 / 10, caterpillarRatio := 1 / 10,
    firstPlatformGap := 200, waterSpeed := 1, eelCount := 2 }

/-- A concrete platform list used by eel-placement witnesses: ground
plus three floating platforms at decreasing heights. -/
def witPlatforms : List Platform :=
  [ { x := 0, y := 550, width := 400, type := PlatformType.normal,
      blockCount := 14 },
    { x := 100, y := 350, width := 60, type := PlatformType.normal,
      blockCount := 2 },
    { x := 200, y := 250, width := 60, type := PlatformType.ice,
      blockCount := 2 },
    { x := 60, y := 150, width := 60, type := PlatformType.normal,
      blockCount := 2 } ]

/-! ### Basic facts about the PRNG -/

theorem U32_pos : 0 < U32 := by decide

theorem U32_eq_two_pow : U32 = 2 ^ 32 := by decide

theorem imul32_lt (a b : ℕ) : imul32 a b < U32 :=
  Nat.mod_lt _ U32_pos

/-- The new state of a Mulberry32 step is a 32-bit value. -/
theorem mulberryStep_state_lt (s : ℕ) : (mulberryStep s).1 < U32 :=
  Nat.mod_lt _ U32_pos

theorem mulberryOut_lt (s : ℕ) : mulberryOut s < U32 :=
  Nat.mod_lt _ U32_pos

theorem mulberryStep_val_eq (s : ℕ) :
    (mulberryStep s).2 = (mulberryOut s : ℚ) / (U32 : ℚ) := rfl

/-- Every Mulberry32 draw is nonnegative. -/
theorem mulberryStep_val_nonneg (s : ℕ) : 0 ≤ (mulberryStep s).2 := by
  rw [mulberryStep_val_eq]
  positivity

/-- Every Mulberry32 draw is strictly below `1`. -/
theorem mulberryStep_val_lt_one (s : ℕ) : (mulberryStep s).2 < 1 := by
  rw [mulberryStep_val_eq]
  rw [div_lt_one (by norm_num [U32])]
  exact_mod_cast mulberryOut_lt s

/-- The step depends only on the state modulo `2 ^ 32`: the generator
is a pure function of its 32-bit internal state. -/
theorem mulberryStep_mod (s : ℕ) :
    mulberryStep (s % U32) = mulberryStep s := by
  unfold mulberryStep
  rw [Nat.mod_add_mod]

/-! ### Claim theorems (first group) -/

/-- C9: every draw of the seeded generator is an unsigned 32-bit
integer divided by `2 ^ 32`, hence lies in `[0, 1)`; the internal
state stays 32-bit, and the step is a pure function of the state
modulo `2 ^ 32` — for every seed and every number of preceding
calls. -/
theorem claim_C9 (seed k : ℕ) :
    (mulberryStep (mulberryState seed k)).2
        = (mulberryOut (mulberryState seed k) : ℚ) / (U32 : ℚ) ∧
      mulberryOut (mulberryState seed k) < U32 ∧
      0 ≤ (mulberryStep (mulberryState seed k)).2 ∧
      (mulberryStep (mulberryState seed k)).2 < 1 ∧
      (mulberryStep (mulberryState seed k)).1 < U32 ∧
      mulberryStep (mulberryState seed k % U32)
        = mulberryStep (mulberryState seed k) :=
  ⟨mulberryStep_val_eq _, mulberryOut_lt _, mulberryStep_val_nonneg _,
   mulberryStep_val_lt_one _, mulberryStep_state_lt _, mulberryStep_mod _⟩

/-- C8: for integers `lo ≤ hi`, `randomInt` equals
`floor(next() * (hi - lo + 1)) + lo` on the current draw, and the
result lies in the inclusive range `[lo, hi]`. -/
theorem claim_C8 (rng : ℕ) (lo hi : ℤ) (h : lo ≤ hi) :
    (randomInt rng lo hi).2
        = ⌊(mulberryStep rng).2 * ((hi : ℚ) - (lo : ℚ) + 1)⌋ + lo ∧
      lo ≤ (randomInt rng lo hi).2 ∧ (randomInt rng lo hi).2 ≤ hi := by
  have h0 := mulberryStep_val_nonneg rng
  have h1 := mulberryStep_val_lt_one rng
  have hspan : (0 : ℚ) < (hi : ℚ) - (lo : ℚ) + 1 := by
    have : (lo : ℚ) ≤ (hi : ℚ) := by exact_mod_cast h
    linarith
  refine ⟨rfl, ?_, ?_⟩
  · have hfl : 0 ≤ ⌊(mulberryStep rng).2 * ((hi : ℚ) - (lo : ℚ) + 1)⌋ :=
      Int.floor_nonneg.mpr (mul_nonneg h0 hspan.le)
    show lo ≤ ⌊(mulberryStep rng).2 * ((hi : ℚ) - (lo : ℚ) + 1)⌋ + lo
    omega
  · have hlt : (mulberryStep rng).2 * ((hi : ℚ) - (lo : ℚ) + 1)
        < ((hi - lo + 1 : ℤ) : ℚ) := by
      have := mul_lt_of_lt_one_left hspan h1
      push_cast
      linarith
    have hfl : ⌊(mulberryStep rng).2 * ((hi : ℚ) - (lo : ℚ) + 1)⌋
        < hi - lo + 1 := Int.floor_lt.mpr hlt
    show ⌊(mulberryStep rng).2 * ((hi : ℚ) - (lo : ℚ) + 1)⌋ + lo ≤ hi
    omega

/-- C8 witness: `randomInt` stays within `[3, 7]` at a concrete
state. -/
theorem claim_C8_witness :
    (3 : ℤ) ≤ (randomInt 0 3 7).2 ∧ (randomInt 0 3 7).2 ≤ 7 :=
  (claim_C8 0 3 7 (by decide)).2

/-- C3: `calculateScore` equals the spec's formula for all arguments,
and on the spec's example (`baseScore = 100`,
`timeBonusMultiplier = 10`, `stageNumber = 3`, `clearTime = 40`,
`baseTime = 60`) it returns `600`. -/
theorem claim_C3 :
    (∀ (C : Config) (n t b : ℚ),
        calculateScore C n t b
          = scoreFormulaSpec C.baseScore C.timeBonusMultiplier n t b) ∧
      calculateScore exampleConfig 3 40 60 = 600 :=
  ⟨fun _ _ _ _ => rfl, by norm_num [calculateScore, exampleConfig]⟩

/-- C2: a stage-start generation run is a pure function of the stage
configuration and the stage number — the incoming module-level PRNG
state is overwritten by `setRandomSeed`, so two runs started from any
two prior states produce identical platform / moon / eel / star
layouts. -/
theorem claim_C2 (C : Config) (sc : StageConfig) (n : ℕ) (th : ℚ)
    (s₁ s₂ : ℕ) :
    (sessionRun C sc n th s₁).1 = (sessionRun C sc n th s₂).1 := rfl


/-! ### Evaluation and sampling lemmas -/

/-- Evaluating one Mulberry32 step from literal data: the Nat parts
are checked by the kernel, the rational part by `norm_num`. -/
theorem mulberryStep_eval (s s' u : ℕ) (v : ℚ)
    (h1 : (s + 0x6D2B79F5) % U32 = s') (h2 : mulberryOut s = u)
    (h3 : (u : ℚ) / (U32 : ℚ) = v) : mulberryStep s = (s', v) := by
  subst h1 h2 h3
  rfl

/-- The block-size snap `Math.round(x / blockSize) * blockSize` moves
a coordinate by at most half a block. -/
theorem jsRound_snap {bs : ℚ} (hbs : 0 < bs) (q : ℚ) :
    |(jsRound (q / bs) : ℚ) * bs - q| ≤ bs / 2 := by
  unfold jsRound
  have h1 : ((⌊q / bs + 1 / 2⌋ : ℤ) : ℚ) ≤ q / bs + 1 / 2 := Int.floor_le _
  have h2 : q / bs + 1 / 2 - 1 < ((⌊q / bs + 1 / 2⌋ : ℤ) : ℚ) :=
    Int.sub_one_lt_floor _
  have hq : q / bs * bs = q := div_mul_cancel₀ q (ne_of_gt hbs)
  rw [abs_le]
  constructor
  · nlinarith
  · nlinarith

/-- For `lo ≤ hi` the sampled value lies in `[lo, hi]` (in fact in
`[lo, hi)`, but the closed bound is all the callers need). -/
theorem randomInRange_le (rng : ℕ) {lo hi : ℚ} (h : lo ≤ hi) :
    lo ≤ (randomInRange rng lo hi).2 ∧ (randomInRange rng lo hi).2 ≤ hi := by
  have h0 := mulberryStep_val_nonneg rng
  have h1 := mulberryStep_val_lt_one rng
  simp only [randomInRange]
  constructor
  · nlinarith
  · nlinarith

/-- Whatever the order of the endpoints, the sampled value lies
between them. -/
theorem randomInRange_between (rng : ℕ) (lo hi : ℚ) :
    min lo hi ≤ (randomInRange rng lo hi).2 ∧
      (randomInRange rng lo hi).2 ≤ max lo hi := by
  rcases le_total lo hi with h | h
  · rw [min_eq_left h, max_eq_right h]
    exact randomInRange_le rng h
  · rw [min_eq_right h, max_eq_left h]
    have h0 := mulberryStep_val_nonneg rng
    have h1 := mulberryStep_val_lt_one rng
    simp only [randomInRange]
    constructor
    · nlinarith
    · nlinarith

/-- The type draw never yields the `moving` variant. -/
theorem determinePlatformType_ne_moving (sc : StageConfig) (rng : ℕ) :
    (determinePlatformType sc rng).2 ≠ PlatformType.moving := by
  simp only [determinePlatformType]
  split_ifs <;> simp

/-- When `caterpillarRatio` is nonnegative, a draw at or above the
cumulative sum of the three ratios falls back to `normal`. -/
theorem determinePlatformType_fallback (sc : StageConfig) (rng : ℕ)
    (hc : 0 ≤ sc.caterpillarRatio)
    (h : sc.normalRatio + sc.iceRatio + sc.caterpillarRatio
          ≤ (mulberryStep rng).2) :
    (determinePlatformType sc rng).2 = PlatformType.normal := by
  simp only [determinePlatformType]
  split_ifs with h1 h2 h3
  · rfl
  · exact absurd h (by push_neg; linarith)
  · exact absurd h (by push_neg; linarith)
  · rfl


/-- Center displacement of a snapped sample from a non-inverted
window centered at `lx`: at most the jump range plus the snap plus
the half width. -/
theorem sample_center_bound {W bs : ℚ} (hbs : 0 < bs) (lx w r : ℚ)
    (h0 : 0 ≤ r) (h1 : r < 1) (h0w : 0 ≤ w)
    (hwin : max 10 (lx - W * (1 / 2))
        ≤ min (W - w - 10) (lx + W * (1 / 2))) :
    |(jsRound ((r * (min (W - w - 10) (lx + W * (1 / 2))
          - max 10 (lx - W * (1 / 2)))
        + max 10 (lx - W * (1 / 2))) / bs) : ℚ) * bs + w / 2 - lx|
      ≤ W * (1 / 2) + bs / 2 + w / 2 := by
  set minX := max 10 (lx - W * (1 / 2)) with hminX
  set maxX := min (W - w - 10) (lx + W * (1 / 2)) with hmaxX
  set xr := r * (maxX - minX) + minX with hxr
  have hspan : 0 ≤ maxX - minX := sub_nonneg.mpr hwin
  have ha : 0 ≤ r * (maxX - minX) := mul_nonneg h0 hspan
  have hb : r * (maxX - minX) ≤ maxX - minX := by nlinarith
  have hJlo : lx - W * (1 / 2) ≤ xr := by
    have := le_max_right 10 (lx - W * (1 / 2))
    rw [← hminX] at this
    simp only [hxr]
    linarith
  have hJhi : xr ≤ lx + W * (1 / 2) := by
    have := min_le_right (W - w - 10) (lx + W * (1 / 2))
    rw [← hmaxX] at this
    simp only [hxr]
    linarith
  have hsnap := jsRound_snap hbs xr
  rw [abs_le] at hsnap ⊢
  obtain ⟨hs1, hs2⟩ := hsnap
  constructor
  · linarith
  · linarith

/-- A snapped sample stays within half a block of the interval
spanned by the two window endpoints, in either order. -/
theorem sample_clamp_bound {bs : ℚ} (hbs : 0 < bs) (lo hi r : ℚ)
    (h0 : 0 ≤ r) (h1 : r < 1) :
    min lo hi - bs / 2 ≤ (jsRound ((r * (hi - lo) + lo) / bs) : ℚ) * bs ∧
    (jsRound ((r * (hi - lo) + lo) / bs) : ℚ) * bs ≤ max lo hi + bs / 2 := by
  set xr := r * (hi - lo) + lo with hxr
  have hb : min lo hi ≤ xr ∧ xr ≤ max lo hi := by
    rcases le_total lo hi with h | h
    · rw [min_eq_left h, max_eq_right h]
      constructor <;> nlinarith [mul_nonneg h0 (sub_nonneg.mpr h)]
    · rw [min_eq_right h, max_eq_left h]
      constructor <;> nlinarith
  have hsnap := jsRound_snap hbs xr
  rw [abs_le] at hsnap
  obtain ⟨hs1, hs2⟩ := hsnap
  exact ⟨by linarith [hb.1], by linarith [hb.2]⟩

/-- The platform emitted by one loop iteration satisfies the
reachability bound relative to the window center `lx`. -/
theorem genStep_reach (C : Config) (hbs : 0 < C.blockSize)
    (sc : StageConfig) (isFirst : Bool) (rng : ℕ) (y lx : ℚ) :
    reachFrom C lx (genStep C sc isFirst rng y lx).1 := by
  simp only [genStep, reachFrom, randomInRange]
  intro h0w hwin
  exact sample_center_bound hbs lx _ _ (mulberryStep_val_nonneg _)
    (mulberryStep_val_lt_one _) h0w hwin

/-- The platform emitted by one loop iteration has its `x` within
half a block of the sampling window, in whichever order the window's
endpoints lie. -/
theorem genStep_clamp (C : Config) (hbs : 0 < C.blockSize)
    (sc : StageConfig) (isFirst : Bool) (rng : ℕ) (y lx : ℚ) :
    clampFrom C lx (genStep C sc isFirst rng y lx).1 := by
  simp only [genStep, clampFrom, randomInRange]
  exact sample_clamp_bound hbs _ _ _ (mulberryStep_val_nonneg _)
    (mulberryStep_val_lt_one _)

/-- On the first iteration the platform sits at the incoming
`currentY`. -/
theorem genStep_y_first (C : Config) (sc : StageConfig) (rng : ℕ)
    (y lx : ℚ) : (genStep C sc true rng y lx).1.y = y := by
  simp [genStep, platformOf]

/-- On later iterations, with a positive non-inverted gap range, the
platform sits strictly above the incoming `currentY`. -/
theorem genStep_y_lt (C : Config) (sc : StageConfig)
    (h1 : 0 < sc.gapMin) (h2 : sc.gapMin ≤ sc.gapMax) (rng : ℕ)
    (y lx : ℚ) : (genStep C sc false rng y lx).1.y < y := by
  simp only [genStep, randomInRange, platformOf]
  have h0 := mulberryStep_val_nonneg rng
  have hl := mulberryStep_val_lt_one rng
  simp only [Bool.false_eq_true, if_false]
  nlinarith [mul_nonneg h0 (sub_nonneg.mpr h2)]

/-- The record fields of `platformOf`. -/
theorem platformOf_fields (t : PlatformType) (x y w : ℚ) (bc : ℤ)
    (d : ℚ) :
    ((platformOf t x y w bc d).type = PlatformType.caterpillar →
      (platformOf t x y w bc d).caterpillarOffset = some 0 ∧
      ((platformOf t x y w bc d).caterpillarDirection = some 1 ∨
        (platformOf t x y w bc d).caterpillarDirection = some (-1))) ∧
    ((platformOf t x y w bc d).type ≠ PlatformType.caterpillar →
      (platformOf t x y w bc d).caterpillarOffset = none ∧
      (platformOf t x y w bc d).caterpillarDirection = none) := by
  by_cases h : t = PlatformType.caterpillar
  · subst h
    have hoff : (platformOf PlatformType.caterpillar x y w bc
        d).caterpillarOffset = some 0 := rfl
    have hdir : (platformOf PlatformType.caterpillar x y w bc
        d).caterpillarDirection = some (if d < 1 / 2 then 1 else -1) := rfl
    refine ⟨fun _ => ⟨hoff, ?_⟩, fun hn => absurd rfl hn⟩
    by_cases hd : d < 1 / 2
    · exact Or.inl (by rw [hdir, if_pos hd])
    · exact Or.inr (by rw [hdir, if_neg hd])
  · have hty : (platformOf t x y w bc d).type = t := rfl
    refine ⟨fun hc => absurd (hty ▸ hc) h, fun _ => ⟨?_, ?_⟩⟩
    · show (if t = PlatformType.caterpillar then some (0 : ℚ) else none)
        = none
      rw [if_neg h]
    · show (if t = PlatformType.caterpillar then
          some (if d < 1 / 2 then (1 : ℤ) else -1) else none) = none
      rw [if_neg h]

/-- The platform emitted by `genStep` is a `platformOf` record whose
type comes from `determinePlatformType`. -/
theorem genStep_1_def (C : Config) (sc : StageConfig) (isFirst : Bool)
    (rng : ℕ) (y lx : ℚ) :
    ∃ (st : ℕ) (x y' w : ℚ) (bc : ℤ) (d : ℚ),
      (genStep C sc isFirst rng y lx).1
        = platformOf (determinePlatformType sc st).2 x y' w bc d :=
  ⟨_, _, _, _, _, _, rfl⟩

/-- The emitted platform's type is never `moving`, and exactly the
caterpillar platforms carry `caterpillarOffset = some 0` and a
direction of `±1`. -/
theorem genStep_type_fields (C : Config) (sc : StageConfig)
    (isFirst : Bool) (rng : ℕ) (y lx : ℚ) :
    (genStep C sc isFirst rng y lx).1.type ≠ PlatformType.moving ∧
    ((genStep C sc isFirst rng y lx).1.type = PlatformType.caterpillar →
      (genStep C sc isFirst rng y lx).1.caterpillarOffset = some 0 ∧
      ((genStep C sc isFirst rng y lx).1.caterpillarDirection = some 1 ∨
        (genStep C sc isFirst rng y lx).1.caterpillarDirection = some (-1))) ∧
    ((genStep C sc isFirst rng y lx).1.type ≠ PlatformType.caterpillar →
      (genStep C sc isFirst rng y lx).1.caterpillarOffset = none ∧
      (genStep C sc isFirst rng y lx).1.caterpillarDirection = none) := by
  obtain ⟨st, x, y', w, bc, d, h⟩ := genStep_1_def C sc isFirst rng y lx
  rw [h]
  refine ⟨?_, (platformOf_fields _ x y' w bc d).1,
    (platformOf_fields _ x y' w bc d).2⟩
  have hne := determinePlatformType_ne_moving sc st
  simpa [platformOf] using hne


/-! ### Loop invariants of the platform generator -/

theorem genFloating_length (C : Config) (sc : StageConfig) :
    ∀ (n : ℕ) (isFirst : Bool) (rng : ℕ) (y lx : ℚ),
      (genFloating C sc n isFirst rng y lx).1.length = n
  | 0, _, _, _, _ => rfl
  | n + 1, isFirst, rng, y, lx => by
    simp only [genFloating, List.length_cons]
    rw [genFloating_length C sc n]

/-- Every platform in the loop's output satisfies the type/field
discipline of `genStep`. -/
theorem genFloating_mem_type (C : Config) (sc : StageConfig) :
    ∀ (n : ℕ) (isFirst : Bool) (rng : ℕ) (y lx : ℚ) (p : Platform),
      p ∈ (genFloating C sc n isFirst rng y lx).1 →
      p.type ≠ PlatformType.moving ∧
      (p.type = PlatformType.caterpillar →
        p.caterpillarOffset = some 0 ∧
        (p.caterpillarDirection = some 1 ∨
          p.caterpillarDirection = some (-1))) ∧
      (p.type ≠ PlatformType.caterpillar →
        p.caterpillarOffset = none ∧ p.caterpillarDirection = none)
  | 0, _, _, _, _, p, hp => by cases hp
  | n + 1, isFirst, rng, y, lx, p, hp => by
    simp only [genFloating, List.mem_cons] at hp
    rcases hp with hp | hp
    · subst hp
      exact genStep_type_fields C sc isFirst rng y lx
    · exact genFloating_mem_type C sc n false _ _ _ p hp

/-- If the loop's output is nonempty, its first platform was emitted
by `genStep` from the incoming loop state. -/
theorem genFloating_head (C : Config) (sc : StageConfig)
    (P : ℚ → Platform → Prop)
    (hP : ∀ (isFirst : Bool) (rng : ℕ) (y lx : ℚ),
      P lx (genStep C sc isFirst rng y lx).1) :
    ∀ (n : ℕ) (isFirst : Bool) (rng : ℕ) (y lx : ℚ) (p : Platform),
      (genFloating C sc n isFirst rng y lx).1.head? = some p → P lx p
  | 0, _, _, _, _, p, hp => by cases hp
  | n + 1, isFirst, rng, y, lx, p, hp => by
    simp only [genFloating, List.head?_cons, Option.some.injEq] at hp
    subst hp
    exact hP isFirst rng y lx

/-- Consecutive platforms of the loop's output are chained by any
property `P` that every `genStep` emission satisfies relative to its
window center: the next platform's window is centered on the
previous platform's center. -/
theorem genFloating_chain (C : Config) (sc : StageConfig)
    (P : ℚ → Platform → Prop)
    (hP : ∀ (isFirst : Bool) (rng : ℕ) (y lx : ℚ),
      P lx (genStep C sc isFirst rng y lx).1) :
    ∀ (n : ℕ) (isFirst : Bool) (rng : ℕ) (y lx : ℚ),
      List.Chain' (fun a b => P (a.x + a.width / 2) b)
        (genFloating C sc n isFirst rng y lx).1
  | 0, _, _, _, _ => List.chain'_nil
  | n + 1, isFirst, rng, y, lx => by
    simp only [genFloating]
    rw [List.chain'_cons']
    refine ⟨?_, genFloating_chain C sc P hP n false _ _ _⟩
    intro b hb
    exact genFloating_head C sc P hP n false _ _ _ b
      (Option.mem_def.mp hb)

/-- With a positive, non-inverted gap range, every platform emitted
by the non-first loop iterations lies strictly above the incoming
`currentY`. -/
theorem genFloating_y_lt_all (C : Config) (sc : StageConfig)
    (h1 : 0 < sc.gapMin) (h2 : sc.gapMin ≤ sc.gapMax) :
    ∀ (n : ℕ) (rng : ℕ) (y lx : ℚ) (p : Platform),
      p ∈ (genFloating C sc n false rng y lx).1 → p.y < y
  | 0, _, _, _, p, hp => by cases hp
  | n + 1, rng, y, lx, p, hp => by
    simp only [genFloating, List.mem_cons] at hp
    have hy := genStep_y_lt C sc h1 h2 rng y lx
    rcases hp with hp | hp
    · subst hp
      exact hy
    · exact lt_trans
        (genFloating_y_lt_all C sc h1 h2 n _ _ _ p hp) hy

/-- With a positive, non-inverted gap range, the loop's output has
strictly decreasing `y`-values. -/
theorem genFloating_y_chain (C : Config) (sc : StageConfig)
    (h1 : 0 < sc.gapMin) (h2 : sc.gapMin ≤ sc.gapMax) :
    ∀ (n : ℕ) (isFirst : Bool) (rng : ℕ) (y lx : ℚ),
      List.Chain' (fun a b => b.y < a.y)
        (genFloating C sc n isFirst rng y lx).1
  | 0, _, _, _, _ => List.chain'_nil
  | n + 1, isFirst, rng, y, lx => by
    simp only [genFloating]
    rw [List.chain'_cons']
    refine ⟨?_, genFloating_y_chain C sc h1 h2 n false _ _ _⟩
    intro b hb
    exact genFloating_y_lt_all C sc h1 h2 n _ _ _ b
      (List.mem_of_mem_head? hb)


/-- C1 (amended): for every stage configuration and positive block
size, consecutive floating platforms are chained by the bound the
sampler actually enforces — whenever the x-sampling window centered
on the previous platform's center does not invert and the platform
width is nonnegative, the distance between consecutive centers is at
most `maxHorizontalJump + blockSize / 2 + width / 2`. -/
theorem claim_C1_amended (C : Config) (sc : StageConfig) (rng : ℕ)
    (hbs : 0 < C.blockSize) :
    List.Chain' (fun a b => reachFrom C (a.x + a.width / 2) b)
      ((generatePlatforms C sc rng).1.drop 1) := by
  simp only [generatePlatforms, List.drop_succ_cons, List.drop_zero]
  exact genFloating_chain C sc (reachFrom C)
    (fun i r y l => genStep_reach C hbs sc i r y l)
    sc.platformCount true rng _ _

/-- C1 witness: the amended reachability chain holds on a concrete
generated stage. -/
theorem claim_C1_amended_witness :
    List.Chain' (fun a b => reachFrom cexConfig (a.x + a.width / 2) b)
      ((generatePlatforms cexConfig witStage (seedFor 1)).1.drop 1) :=
  claim_C1_amended cexConfig witStage (seedFor 1)
    (by norm_num [cexConfig])

/-- C4 (amended): generation is total — the platform list always has
`platformCount + 1` entries — and every floating platform's `x` lies
within half a block of the interval spanned by its window endpoints
`minX` and `maxX` in whichever order they lie, including when the
window inverts; the window of the first floating platform is
centered on `canvasWidth / 2`. -/
theorem claim_C4_amended (C : Config) (sc : StageConfig) (rng : ℕ)
    (hbs : 0 < C.blockSize) :
    (generatePlatforms C sc rng).1.length = sc.platformCount + 1 ∧
    (∀ p, ((generatePlatforms C sc rng).1.drop 1).head? = some p →
      clampFrom C (C.canvasWidth / 2) p) ∧
    List.Chain' (fun a b => clampFrom C (a.x + a.width / 2) b)
      ((generatePlatforms C sc rng).1.drop 1) := by
  refine ⟨?_, ?_, ?_⟩
  · simp only [generatePlatforms, List.length_cons, genFloating_length]
  · intro p hp
    simp only [generatePlatforms, List.drop_succ_cons, List.drop_zero] at hp
    exact genFloating_head C sc (clampFrom C)
      (fun i r y l => genStep_clamp C hbs sc i r y l) _ _ _ _ _ p hp
  · simp only [generatePlatforms, List.drop_succ_cons, List.drop_zero]
    exact genFloating_chain C sc (clampFrom C)
      (fun i r y l => genStep_clamp C hbs sc i r y l)
      sc.platformCount true rng _ _

/-- C4 witness: the amended clamping statement holds on a concrete
generated stage. -/
theorem claim_C4_amended_witness :
    (generatePlatforms cexConfig witStage (seedFor 2)).1.length
        = witStage.platformCount + 1 ∧
    (∀ p, ((generatePlatforms cexConfig witStage (seedFor 2)).1.drop 1).head?
        = some p → clampFrom cexConfig (cexConfig.canvasWidth / 2) p) ∧
    List.Chain' (fun a b => clampFrom cexConfig (a.x + a.width / 2) b)
      ((generatePlatforms cexConfig witStage (seedFor 2)).1.drop 1) :=
  claim_C4_amended cexConfig witStage (seedFor 2)
    (by norm_num [cexConfig])

/-- C5 (amended): the platform list always starts with the ground
platform (`x = 0`, `width = canvasWidth`, `y = canvasHeight - 50`,
type `normal`) followed by exactly `platformCount` floating
platforms, and when `0 < gapMin` and `gapMin ≤ gapMax` the floating
platforms' `y`-values strictly decrease in generation order. -/
theorem claim_C5_amended (C : Config) (sc : StageConfig) (rng : ℕ) :
    (generatePlatforms C sc rng).1.length = sc.platformCount + 1 ∧
    (generatePlatforms C sc rng).1.head? = some
      { x := 0, y := C.canvasHeight - 50, width := C.canvasWidth,
        type := PlatformType.normal,
        blockCount := ⌈C.canvasWidth / C.blockSize⌉ } ∧
    (0 < sc.gapMin → sc.gapMin ≤ sc.gapMax →
      List.Chain' (fun a b => b.y < a.y)
        ((generatePlatforms C sc rng).1.drop 1)) := by
  refine ⟨?_, rfl, fun h1 h2 => ?_⟩
  · simp only [generatePlatforms, List.length_cons, genFloating_length]
  · simp only [generatePlatforms, List.drop_succ_cons, List.drop_zero]
    exact genFloating_y_chain C sc h1 h2 sc.platformCount true rng _ _

/-- C5 witness: strictly decreasing floating `y`-values on a
concrete stage with a positive non-inverted gap range. -/
theorem claim_C5_amended_witness :
    List.Chain' (fun a b => b.y < a.y)
      ((generatePlatforms cexConfig witStage (seedFor 5)).1.drop 1) :=
  (claim_C5_amended cexConfig witStage (seedFor 5)).2.2
    (by norm_num [witStage]) (by norm_num [witStage])

/-- C10 (amended): every generated platform's type is `normal`,
`ice` or `caterpillar` (never `moving`); exactly the caterpillar
platforms carry `caterpillarOffset = 0` and a direction in
`{-1, +1}`; and — provided `caterpillarRatio` is nonnegative — a
type draw at or above `normalRatio + iceRatio + caterpillarRatio`
falls back to `normal`. -/
theorem claim_C10_amended (C : Config) (sc : StageConfig) (rng : ℕ) :
    (∀ p ∈ (generatePlatforms C sc rng).1,
      p.type ≠ PlatformType.moving ∧
      (p.type = PlatformType.caterpillar →
        p.caterpillarOffset = some 0 ∧
        (p.caterpillarDirection = some 1 ∨
          p.caterpillarDirection = some (-1))) ∧
      (p.type ≠ PlatformType.caterpillar →
        p.caterpillarOffset = none ∧ p.caterpillarDirection = none)) ∧
    (∀ rng' : ℕ, 0 ≤ sc.caterpillarRatio →
      sc.normalRatio + sc.iceRatio + sc.caterpillarRatio
          ≤ (mulberryStep rng').2 →
      (determinePlatformType sc rng').2 = PlatformType.normal) := by
  constructor
  · intro p hp
    simp only [generatePlatforms, List.mem_cons] at hp
    rcases hp with hp | hp
    · subst hp
      exact ⟨by simp, fun h => absurd h (by simp), fun _ => ⟨rfl, rfl⟩⟩
    · exact genFloating_mem_type C sc sc.platformCount true _ _ _ p hp
  · exact fun rng' hc h => determinePlatformType_fallback sc rng' hc h

/-- C10 witness: the fallback draw yields `normal` at a concrete
state whose draw exceeds the cumulative ratio sum. -/
theorem claim_C10_amended_witness :
    (determinePlatformType witStage 2399596086).2 = PlatformType.normal := by
  have hm : mulberryStep 2399596086
      = (4231161899, (4199108503 : ℚ) / 4294967296) :=
    mulberryStep_eval 2399596086 4231161899 4199108503 _ (by decide)
      (by decide) (by norm_num [U32])
  exact (claim_C10_amended cexConfig witStage 0).2 2399596086
    (by norm_num [witStage]) (by rw [hm]; norm_num [witStage])


/-! ### Eel placement -/

/-- Strict upper endpoint of a ranged draw. -/
theorem randomInRange_lt (rng : ℕ) {lo hi : ℚ} (h : lo < hi) :
    (randomInRange rng lo hi).2 < hi := by
  have h0 := mulberryStep_val_nonneg rng
  have h1 := mulberryStep_val_lt_one rng
  simp only [randomInRange]
  nlinarith

theorem eelLoop_length (C : Config) (hY hR : ℚ) (cnt : ℕ)
    (f0 : Platform) (fl : List Platform) :
    ∀ (fuel i rng : ℕ),
      (eelLoop C hY hR cnt f0 fl i fuel rng).1.length = fuel
  | 0, _, _ => rfl
  | fuel + 1, i, rng => by
    simp only [eelLoop, List.length_cons]
    rw [eelLoop_length C hY hR cnt f0 fl fuel]

/-- Every eel produced by the loop is a `makeEel` output. -/
theorem eelLoop_mem (C : Config) (hY hR : ℚ) (cnt : ℕ)
    (f0 : Platform) (fl : List Platform) :
    ∀ (fuel i rng : ℕ) (e : Eel),
      e ∈ (eelLoop C hY hR cnt f0 fl i fuel rng).1 →
      ∃ k r', e = (makeEel C k hY hR cnt f0 fl r').1
  | 0, _, _, _, he => by cases he
  | fuel + 1, i, rng, e, he => by
    simp only [eelLoop, List.mem_cons] at he
    rcases he with he | he
    · exact ⟨i, rng, he⟩
    · exact eelLoop_mem C hY hR cnt f0 fl fuel (i + 1) _ e he

/-- The `j`-th eel of the loop started at index `i` is a `makeEel`
output for index `i + j`. -/
theorem eelLoop_getD (C : Config) (hY hR : ℚ) (cnt : ℕ)
    (f0 : Platform) (fl : List Platform) :
    ∀ (fuel i rng j : ℕ), j < fuel →
      ∃ r', (eelLoop C hY hR cnt f0 fl i fuel rng).1.getD j dfltEel
        = (makeEel C (i + j) hY hR cnt f0 fl r').1
  | 0, _, _, _, hj => absurd hj (Nat.not_lt_zero _)
  | fuel + 1, i, rng, 0, _ =>
    ⟨rng, by simp only [eelLoop, List.getD_cons_zero, Nat.add_zero]⟩
  | fuel + 1, i, rng, j + 1, hj => by
    obtain ⟨r', hr⟩ := eelLoop_getD C hY hR cnt f0 fl fuel (i + 1)
      (makeEel C i hY hR cnt f0 fl rng).2 j (by omega)
    have hidx : i + 1 + j = i + (j + 1) := by omega
    rw [hidx] at hr
    refine ⟨r', ?_⟩
    simp only [eelLoop, List.getD_cons_succ]
    exact hr

/-- `makeEel` never marks its eel collected. -/
theorem makeEel_isCollected (C : Config) (i : ℕ) (hY hR : ℚ)
    (cnt : ℕ) (f0 : Platform) (fl : List Platform) (rng : ℕ) :
    (makeEel C i hY hR cnt f0 fl rng).1.isCollected = false := rfl

/-- The eel of index `i` sits between `100` and `200` units above the
platform nearest to its target height. -/
theorem makeEel_y (C : Config) (i : ℕ) (hY hR : ℚ) (cnt : ℕ)
    (f0 : Platform) (fl : List Platform) (rng : ℕ) :
    (nearestPlatformTo (hY + hR / ((cnt : ℚ) + 1) * ((i : ℚ) + 1))
          f0 fl).y - 200
        < (makeEel C i hY hR cnt f0 fl rng).1.y ∧
      (makeEel C i hY hR cnt f0 fl rng).1.y
        ≤ (nearestPlatformTo (hY + hR / ((cnt : ℚ) + 1) * ((i : ℚ) + 1))
            f0 fl).y - 100 := by
  simp only [makeEel]
  constructor
  · have := randomInRange_lt ((randomInRange rng
      (max 20 ((nearestPlatformTo (hY + hR / ((cnt : ℚ) + 1)
        * ((i : ℚ) + 1)) f0 fl).x - 50))
      (min (C.canvasWidth - C.eelSize - 20)
        ((nearestPlatformTo (hY + hR / ((cnt : ℚ) + 1) * ((i : ℚ) + 1))
          f0 fl).x
          + (nearestPlatformTo (hY + hR / ((cnt : ℚ) + 1) * ((i : ℚ) + 1))
              f0 fl).width + 50))).1)
      (show (100 : ℚ) < 200 by norm_num)
    linarith
  · have := (randomInRange_le ((randomInRange rng
      (max 20 ((nearestPlatformTo (hY + hR / ((cnt : ℚ) + 1)
        * ((i : ℚ) + 1)) f0 fl).x - 50))
      (min (C.canvasWidth - C.eelSize - 20)
        ((nearestPlatformTo (hY + hR / ((cnt : ℚ) + 1) * ((i : ℚ) + 1))
          f0 fl).x
          + (nearestPlatformTo (hY + hR / ((cnt : ℚ) + 1) * ((i : ℚ) + 1))
              f0 fl).width + 50))).1)
      (show (100 : ℚ) ≤ 200 by norm_num)).1
    linarith

/-- The strict-improvement fold keeps the earliest minimizer: the
result of folding from `b` over `l` is the first element of `b :: l`
attaining the minimal vertical distance to `t`. -/
theorem foldl_earliestMin (t : ℚ) (l : List Platform) :
    ∀ b : Platform,
      ∃ i, i < (b :: l).length ∧
        (b :: l).getD i dfltPlatform = nearestPlatformTo t b l ∧
        (∀ q ∈ b :: l,
          |(nearestPlatformTo t b l).y - t| ≤ |q.y - t|) ∧
        ∀ j < i, |(nearestPlatformTo t b l).y - t|
          < |((b :: l).getD j dfltPlatform).y - t| := by
  induction l with
  | nil =>
    intro b
    exact ⟨0, by simp, rfl, by simp [nearestPlatformTo], by omega⟩
  | cons p l ih =>
    intro b
    have hstep : nearestPlatformTo t b (p :: l)
        = nearestPlatformTo t (if |p.y - t| < |b.y - t| then p else b) l := by
      simp only [nearestPlatformTo, List.foldl_cons]
    by_cases hd : |p.y - t| < |b.y - t|
    · rw [if_pos hd] at hstep
      obtain ⟨i', hi', hget, hmin, hstrict⟩ := ih p
      rw [hstep]
      refine ⟨i' + 1, ?_, ?_, ?_, ?_⟩
      · simp only [List.length_cons] at hi' ⊢
        omega
      · simpa only [List.getD_cons_succ] using hget
      · intro q hq
        rcases List.mem_cons.mp hq with rfl | hq'
        · exact le_trans (hmin p (List.mem_cons_self _ _)) hd.le
        · exact hmin q hq'
      · intro j hj
        match j with
        | 0 =>
          simp only [List.getD_cons_zero]
          exact lt_of_le_of_lt (hmin p (List.mem_cons_self _ _)) hd
        | j + 1 =>
          simp only [List.getD_cons_succ]
          exact hstrict j (by omega)
    · rw [if_neg hd] at hstep
      push_neg at hd
      obtain ⟨i', hi', hget, hmin, hstrict⟩ := ih b
      rw [hstep]
      match i', hi', hget, hstrict with
      | 0, _, hget, _ =>
        have hN : nearestPlatformTo t b l = b := by
          simpa only [List.getD_cons_zero] using hget.symm
        refine ⟨0, by simp, by simpa only [List.getD_cons_zero] using hN.symm,
          ?_, by omega⟩
        intro q hq
        rw [hN]
        rcases List.mem_cons.mp hq with rfl | hq'
        · exact le_refl _
        · rcases List.mem_cons.mp hq' with rfl | hq''
          · exact hd
          · have := hmin q (List.mem_cons_of_mem b hq'')
            rwa [hN] at this
      | j'' + 1, hi', hget, hstrict =>
        have hb : |(nearestPlatformTo t b l).y - t| < |b.y - t| := by
          have := hstrict 0 (by omega)
          simpa only [List.getD_cons_zero] using this
        refine ⟨j'' + 2, ?_, ?_, ?_, ?_⟩
        · simp only [List.length_cons] at hi' ⊢
          omega
        · simp only [List.getD_cons_succ]
          simpa only [List.getD_cons_succ] using hget
        · intro q hq
          rcases List.mem_cons.mp hq with rfl | hq'
          · exact hmin q (List.mem_cons_self _ _)
          · rcases List.mem_cons.mp hq' with rfl | hq''
            · exact le_trans hb.le hd
            · exact hmin q (List.mem_cons_of_mem b hq'')
        · intro j hj
          match j with
          | 0 =>
            simpa only [List.getD_cons_zero] using hb
          | 1 =>
            simp only [List.getD_cons_succ, List.getD_cons_zero]
            exact lt_of_lt_of_le hb hd
          | j3 + 2 =>
            simp only [List.getD_cons_succ]
            have := hstrict (j3 + 1) (by omega)
            simpa only [List.getD_cons_succ] using this

/-- Scanning the whole floating list with the first element as the
initial candidate equals scanning the tail: the duplicated first
element never strictly improves on itself. -/
theorem nearestPlatformTo_self (t : ℚ) (f0 : Platform)
    (rest : List Platform) :
    nearestPlatformTo t f0 (f0 :: rest) = nearestPlatformTo t f0 rest := by
  simp only [nearestPlatformTo, List.foldl_cons, ite_self]

/-- The platform chosen by the eel scan is the earliest minimizer of
vertical distance among the floating platforms. -/
theorem nearestPlatformTo_earliest (t : ℚ) (f0 : Platform)
    (rest : List Platform) :
    isEarliestMin t (f0 :: rest)
      (nearestPlatformTo t f0 (f0 :: rest)) := by
  rw [nearestPlatformTo_self]
  exact foldl_earliestMin t rest f0

/-- Helper: the eel list's length in the productive case. -/
theorem generateEels_length (C : Config) (sc : StageConfig)
    (platforms : List Platform) (rng : ℕ) (h0 : sc.eelCount ≠ 0)
    (h2 : ¬ (platforms.drop 1).length < 2) :
    (generateEels C sc platforms rng).1.length = sc.eelCount := by
  cases hfl : platforms.drop 1 with
  | nil => rw [hfl] at h2; simp at h2
  | cons f0 rest =>
    rw [hfl] at h2
    simp only [generateEels, if_neg h0, hfl, if_neg h2]
    exact eelLoop_length C _ _ sc.eelCount f0 (f0 :: rest)
      sc.eelCount 0 rng


/-- C7: `generateEels` returns the empty list when `eelCount = 0` or
when fewer than two floating platforms exist, and otherwise returns
exactly `eelCount` eels, each with `isCollected = false`. -/
theorem claim_C7 (C : Config) (sc : StageConfig)
    (platforms : List Platform) (rng : ℕ) :
    (sc.eelCount = 0 → (generateEels C sc platforms rng).1 = []) ∧
    ((platforms.drop 1).length < 2 →
      (generateEels C sc platforms rng).1 = []) ∧
    (sc.eelCount ≠ 0 → ¬ (platforms.drop 1).length < 2 →
      (generateEels C sc platforms rng).1.length = sc.eelCount ∧
      ∀ e ∈ (generateEels C sc platforms rng).1,
        e.isCollected = false) := by
  refine ⟨?_, ?_, ?_⟩
  · intro h
    simp [generateEels, h]
  · intro h
    by_cases h0 : sc.eelCount = 0
    · simp [generateEels, h0]
    · simp only [generateEels, if_neg h0, if_pos h]
  · intro h0 h2
    refine ⟨generateEels_length C sc platforms rng h0 h2, ?_⟩
    intro e he
    cases hfl : platforms.drop 1 with
    | nil => rw [hfl] at h2; simp at h2
    | cons f0 rest =>
      rw [hfl] at h2
      simp only [generateEels, if_neg h0, hfl, if_neg h2] at he
      obtain ⟨k, r', rfl⟩ := eelLoop_mem C _ _ sc.eelCount f0
        (f0 :: rest) sc.eelCount 0 rng e he
      rfl

/-- C7 witness: a concrete productive configuration yields exactly
`eelCount` uncollected eels. -/
theorem claim_C7_witness :
    (generateEels cexConfig witStage witPlatforms 7).1.length
        = witStage.eelCount ∧
    ∀ e ∈ (generateEels cexConfig witStage witPlatforms 7).1,
      e.isCollected = false :=
  (claim_C7 cexConfig witStage witPlatforms 7).2.2
    (by norm_num [witStage]) (by norm_num [witPlatforms])

/-- C6: with at least two floating platforms and a nonzero eel
count, each eel `j` targets the evenly spaced height
`highestY + heightRange / (eelCount + 1) * (j + 1)`, is attached to
the earliest floating platform minimizing vertical distance to that
target, and sits between `100` and `200` units above that platform's
top. -/
theorem claim_C6 (C : Config) (sc : StageConfig)
    (platforms : List Platform) (rng : ℕ) (h0 : sc.eelCount ≠ 0)
    (h2 : ¬ (platforms.drop 1).length < 2) (j : ℕ)
    (hj : j < (generateEels C sc platforms rng).1.length) :
    ∃ p : Platform,
      isEarliestMin
        (((platforms.drop 1).getLast?.getD
            ((platforms.drop 1).getD 0 dfltPlatform)).y
          + (((platforms.drop 1).getD 0 dfltPlatform).y
              - ((platforms.drop 1).getLast?.getD
                  ((platforms.drop 1).getD 0 dfltPlatform)).y)
            / ((sc.eelCount : ℚ) + 1) * ((j : ℚ) + 1))
        (platforms.drop 1) p ∧
      p.y - 200
          < ((generateEels C sc platforms rng).1.getD j dfltEel).y ∧
      ((generateEels C sc platforms rng).1.getD j dfltEel).y
          ≤ p.y - 100 := by
  cases hfl : platforms.drop 1 with
  | nil => rw [hfl] at h2; simp at h2
  | cons f0 rest =>
    rw [hfl] at h2
    rw [generateEels_length C sc platforms rng h0 (by rw [hfl]; exact h2)]
      at hj
    simp only [generateEels, if_neg h0, hfl, if_neg h2]
    obtain ⟨r', hr⟩ := eelLoop_getD C
      ((f0 :: rest).getLast?.getD f0).y
      (f0.y - ((f0 :: rest).getLast?.getD f0).y) sc.eelCount f0
      (f0 :: rest) sc.eelCount 0 rng j hj
    rw [Nat.zero_add] at hr
    rw [hr]
    refine ⟨nearestPlatformTo
      (((f0 :: rest).getLast?.getD f0).y
        + (f0.y - ((f0 :: rest).getLast?.getD f0).y)
          / ((sc.eelCount : ℚ) + 1) * ((j : ℚ) + 1)) f0 (f0 :: rest),
      ?_, ?_, ?_⟩
    · simpa only [List.getD_cons_zero] using
        nearestPlatformTo_earliest _ f0 rest
    · exact (makeEel_y C j _ _ sc.eelCount f0 (f0 :: rest) r').1
    · exact (makeEel_y C j _ _ sc.eelCount f0 (f0 :: rest) r').2

/-- C6 witness: the eel-placement property at a concrete stage and
eel index. -/
theorem claim_C6_witness :
    ∃ p : Platform,
      isEarliestMin
        (((witPlatforms.drop 1).getLast?.getD
            ((witPlatforms.drop 1).getD 0 dfltPlatform)).y
          + (((witPlatforms.drop 1).getD 0 dfltPlatform).y
              - ((witPlatforms.drop 1).getLast?.getD
                  ((witPlatforms.drop 1).getD 0 dfltPlatform)).y)
            / ((witStage.eelCount : ℚ) + 1) * (((0 : ℕ) : ℚ) + 1))
        (witPlatforms.drop 1) p ∧
      p.y - 200
          < ((generateEels cexConfig witStage witPlatforms 7).1.getD 0
              dfltEel).y ∧
      ((generateEels cexConfig witStage witPlatforms 7).1.getD 0
          dfltEel).y ≤ p.y - 100 := by
  have h := claim_C6 cexConfig witStage witPlatforms 7
    (by norm_num [witStage]) (by norm_num [witPlatforms]) 0
    (by rw [generateEels_length cexConfig witStage witPlatforms 7
          (by norm_num [witStage]) (by norm_num [witPlatforms])]
        norm_num [witStage])
  exact h


/-! ### Concrete counterexample runs -/

/-- The concrete stage generated from `cexWide` at stage number 1:
ground plus two floating platforms of width `3000 > canvasWidth`,
whose sampling windows invert. -/
theorem cexWide_run :
    (generatePlatforms cexConfig cexWide (seedFor 1)).1
      = [{ x := 0, y := 550, width := 400, type := PlatformType.normal,
           blockCount := 14 },
         { x := -1350, y := 350, width := 3000,
           type := PlatformType.normal, blockCount := 100 },
         { x := -690, y := 250, width := 3000,
           type := PlatformType.normal, blockCount := 100 }] := by
  have hm1 : mulberryStep 111110
      = (1831676923, (2695267540 : ℚ) / 4294967296) :=
    mulberryStep_eval 111110 1831676923 2695267540 _ (by decide)
      (by decide) (by norm_num [U32])
  have hm2 : mulberryStep 1831676923
      = (3663242736, (843338159 : ℚ) / 4294967296) :=
    mulberryStep_eval 1831676923 3663242736 843338159 _ (by decide)
      (by decide) (by norm_num [U32])
  have hm3 : mulberryStep 3663242736
      = (1199841253, (2249099143 : ℚ) / 4294967296) :=
    mulberryStep_eval 3663242736 1199841253 2249099143 _ (by decide)
      (by decide) (by norm_num [U32])
  have hm4 : mulberryStep 1199841253
      = (3031407066, (502866735 : ℚ) / 4294967296) :=
    mulberryStep_eval 1199841253 3031407066 502866735 _ (by decide)
      (by decide) (by norm_num [U32])
  have hm5 : mulberryStep 3031407066
      = (568005583, (3417569309 : ℚ) / 4294967296) :=
    mulberryStep_eval 3031407066 568005583 3417569309 _ (by decide)
      (by decide) (by norm_num [U32])
  have hm6 : mulberryStep 568005583
      = (2399571396, (1624201931 : ℚ) / 4294967296) :=
    mulberryStep_eval 568005583 2399571396 1624201931 _ (by decide)
      (by decide) (by norm_num [U32])
  have hm7 : mulberryStep 2399571396
      = (4231137209, (1131049771 : ℚ) / 4294967296) :=
    mulberryStep_eval 2399571396 4231137209 1131049771 _ (by decide)
      (by decide) (by norm_num [U32])
  have hg1 : genStep cexConfig cexWide true 111110 350 200 =
      ({ x := -1350, y := 350, width := 3000,
         type := PlatformType.normal, blockCount := 100 }, 1199841253) := by
    norm_num [genStep, platformOf, randomInt, randomInRange,
      determinePlatformType, jsRound, cexConfig, cexWide, hm1, hm2, hm3]
    simp
  have hg2 : genStep cexConfig cexWide false 1199841253 350 150 =
      ({ x := -690, y := 250, width := 3000,
         type := PlatformType.normal, blockCount := 100 }, 4231137209) := by
    norm_num [genStep, platformOf, randomInt, randomInRange,
      determinePlatformType, jsRound, cexConfig, cexWide, hm4, hm5, hm6,
      hm7]
    simp
  have hfloat : genFloating cexConfig cexWide 2 true 111110 350 200 =
      ([{ x := -1350, y := 350, width := 3000,
          type := PlatformType.normal, blockCount := 100 },
        { x := -690, y := 250, width := 3000,
          type := PlatformType.normal, blockCount := 100 }],
       4231137209) := by
    norm_num [genFloating, hg1, hg2]
  norm_num [generatePlatforms, seedFor, hfloat,
    show cexConfig.canvasHeight = (600 : ℚ) from rfl,
    show cexConfig.canvasWidth = (400 : ℚ) from rfl,
    show cexConfig.blockSize = (30 : ℚ) from rfl,
    show cexWide.firstPlatformGap = (200 : ℚ) from rfl,
    show cexWide.platformCount = 2 from rfl]
  norm_num [Int.ceil_eq_iff]

/-- C1 counterexample: on the `cexWide` stage the two consecutive
floating platforms' centers are `660` apart, exceeding the maximum
horizontal jump range `canvasWidth * 0.5 = 200`. -/
theorem claim_C1_counterexample :
    cexConfig.canvasWidth * (1 / 2)
      < |(((generatePlatforms cexConfig cexWide (seedFor 1)).1.getD 1
            dfltPlatform).x
          + ((generatePlatforms cexConfig cexWide (seedFor 1)).1.getD 1
              dfltPlatform).width / 2)
        - (((generatePlatforms cexConfig cexWide (seedFor 1)).1.getD 2
            dfltPlatform).x
          + ((generatePlatforms cexConfig cexWide (seedFor 1)).1.getD 2
              dfltPlatform).width / 2)| := by
  rw [cexWide_run]
  have habs : |((-1350 : ℚ) + 3000 / 2) - ((-690 : ℚ) + 3000 / 2)|
      = 660 := by
    rw [show ((-1350 : ℚ) + 3000 / 2) - ((-690 : ℚ) + 3000 / 2)
        = -660 by norm_num]
    rw [abs_of_nonpos (by norm_num)]
    norm_num
  simp only [List.getD_cons_succ, List.getD_cons_zero]
  rw [habs]
  norm_num [cexConfig]

/-- C4 counterexample: on the `cexWide` stage the first floating
platform's sampling window inverts (`minX = 10 > maxX = -2610`) and
the emitted platform's `x = -1350` lies outside the valid range
`[10, canvasWidth - width - 10]`. -/
theorem claim_C4_counterexample :
    min (cexConfig.canvasWidth
        - ((generatePlatforms cexConfig cexWide (seedFor 1)).1.getD 1
            dfltPlatform).width - 10)
        (cexConfig.canvasWidth / 2 + cexConfig.canvasWidth * (1 / 2))
      < max 10 (cexConfig.canvasWidth / 2
        - cexConfig.canvasWidth * (1 / 2)) ∧
    ((generatePlatforms cexConfig cexWide (seedFor 1)).1.getD 1
        dfltPlatform).x < 10 := by
  rw [cexWide_run]
  simp only [List.getD_cons_succ, List.getD_cons_zero]
  norm_num [cexConfig, min_def, max_def]

/-- C5 counterexample: with `gapMin = 5 > 0` but `gapMax = -10`, the
stage-3 run of `cexGapInv` draws a negative gap, so the floating
platforms' `y`-values are not strictly decreasing. -/
theorem claim_C5_counterexample :
    0 < cexGapInv.gapMin ∧
    ¬ List.Chain' (fun a b => b.y < a.y)
      (((generatePlatforms cexConfig cexGapInv (seedFor 3)).1).drop 1) := by
  have hm1 : mulberryStep 135800
      = (1831701613, (1108721115 : ℚ) / 4294967296) :=
    mulberryStep_eval 135800 1831701613 1108721115 _ (by decide)
      (by decide) (by norm_num [U32])
  have hm2 : mulberryStep 1831701613
      = (3663267426, (3603562921 : ℚ) / 4294967296) :=
    mulberryStep_eval 1831701613 3663267426 3603562921 _ (by decide)
      (by decide) (by norm_num [U32])
  have hm3 : mulberryStep 3663267426
      = (1199865943, (3163550121 : ℚ) / 4294967296) :=
    mulberryStep_eval 3663267426 1199865943 3163550121 _ (by decide)
      (by decide) (by norm_num [U32])
  have hm4 : mulberryStep 1199865943
      = (3031431756, (2552965383 : ℚ) / 4294967296) :=
    mulberryStep_eval 1199865943 3031431756 2552965383 _ (by decide)
      (by decide) (by norm_num [U32])
  have hm5 : mulberryStep 3031431756
      = (568030273, (3428554262 : ℚ) / 4294967296) :=
    mulberryStep_eval 3031431756 568030273 3428554262 _ (by decide)
      (by decide) (by norm_num [U32])
  have hm6 : mulberryStep 568030273
      = (2399596086, (2673355305 : ℚ) / 4294967296) :=
    mulberryStep_eval 568030273 2399596086 2673355305 _ (by decide)
      (by decide) (by norm_num [U32])
  have hm7 : mulberryStep 2399596086
      = (4231161899, (4199108503 : ℚ) / 4294967296) :=
    mulberryStep_eval 2399596086 4231161899 4199108503 _ (by decide)
      (by decide) (by norm_num [U32])
  have hg1 : genStep cexConfig cexGapInv true 135800 350 200 =
      ({ x := 270, y := 350, width := 30, type := PlatformType.normal,
         blockCount := 1 }, 1199865943) := by
    norm_num [genStep, platformOf, randomInt, randomInRange,
      determinePlatformType, jsRound, cexConfig, cexGapInv, hm1, hm2, hm3]
    simp
  have hg2 : genStep cexConfig cexGapInv false 1199865943 350 285 =
      ({ x := 360, y := (1520058197865 : ℚ) / 4294967296, width := 30,
         type := PlatformType.normal, blockCount := 1 }, 4231161899) := by
    norm_num [genStep, platformOf, randomInt, randomInRange,
      determinePlatformType, jsRound, cexConfig, cexGapInv, hm4, hm5,
      hm6, hm7]
    simp
  have hfloat : genFloating cexConfig cexGapInv 2 true 135800 350 200 =
      ([{ x := 270, y := 350, width := 30, type := PlatformType.normal,
          blockCount := 1 },
        { x := 360, y := (1520058197865 : ℚ) / 4294967296, width := 30,
          type := PlatformType.normal, blockCount := 1 }],
       4231161899) := by
    norm_num [genFloating, hg1, hg2]
  constructor
  · norm_num [cexGapInv]
  · norm_num [generatePlatforms, seedFor, hfloat,
      show cexConfig.canvasHeight = (600 : ℚ) from rfl,
      show cexConfig.canvasWidth = (400 : ℚ) from rfl,
      show cexGapInv.firstPlatformGap = (200 : ℚ) from rfl,
      show cexGapInv.platformCount = 2 from rfl,
      List.chain'_cons, List.chain'_singleton]

/-- C10 counterexample: with a negative `caterpillarRatio` the draw
at state `0` is at or above the cumulative ratio sum and yet the
type draw yields `ice`, not `normal`. -/
theorem claim_C10_counterexample :
    cexRatio.normalRatio + cexRatio.iceRatio + cexRatio.caterpillarRatio
        ≤ (mulberryStep 0).2 ∧
    (determinePlatformType cexRatio 0).2 = PlatformType.ice := by
  have hm : mulberryStep 0
      = (1831565813, (1144304738 : ℚ) / 4294967296) :=
    mulberryStep_eval 0 1831565813 1144304738 _ (by decide) (by decide)
      (by norm_num [U32])
  constructor
  · rw [hm]
    norm_num [cexRatio]
  · simp only [determinePlatformType, hm]
    norm_num [cexRatio]

end TakoJump
